import Mathlib

/-!
# Deal Viewer — federated query and normalization layer, verified

A shallow embedding of the Deal Viewer backend (`deal-viewer/backend/app.py`
and `deal-viewer/backend/config.py`): the schema adapters
(`normalize_deal`, `normalize_retailer`, `normalize_costco_photo`,
`normalize_cocoprice`), the federated `/api/products` pipeline
(merge, residual filters, sort, paginate), the single-product id routing,
the chainable `QueryBuilder`, and the TTL `SimpleCache`.

Python values are embedded as follows: numbers are `ℚ`, machine strings are
`String` (character-level semantics), optional / nullable values are
`Option`, Python truthiness (`or`, `and`, `if x:`) is spelled out explicitly,
and dict rows become structures with one `Option` field per key the code
reads.  A database value that is present-but-null is identified with an
absent key, exactly as `dict.get` does.  Wall-clock time is an explicit `ℚ`
parameter wherever the code calls `time.time()` / `datetime.now()`.
-/

set_option maxRecDepth 4000

namespace DealViewer

/-! ## Python truthiness and `or` chains -/

/-- Python truthiness of an optional number: `None` and `0` are falsy. -/
def qTruthy : Option ℚ → Bool
  | none => false
  | some x => x != 0

/-- Python `a or b` on optional numbers (returns `b` verbatim when `a` is falsy). -/
def pyOrQ (a b : Option ℚ) : Option ℚ := if qTruthy a then a else b

/-- Python truthiness of an optional string: `None` and `""` are falsy. -/
def sTruthy : Option String → Bool
  | none => false
  | some s => s != ""

/-- Python `a or b` on optional strings. -/
def pyOrS (a b : Option String) : Option String := if sTruthy a then a else b

/-- Python `a or d` where the final operand is a plain string. -/
def pyOrSD (a : Option String) (d : String) : String :=
  match a with
  | some s => if s != "" then s else d
  | none => d

/-- Python `a or d` for an optional int with an int default (0 is falsy). -/
def pyOrID (a : Option Int) (d : Int) : Int :=
  match a with
  | some x => if x != 0 then x else d
  | none => d

/-! ## Character-level string primitives (Python `str` methods) -/

/-- `str.startswith` on character lists. -/
def isPre : List Char → List Char → Bool
  | [], _ => true
  | _ :: _, [] => false
  | p :: ps, c :: cs => p == c && isPre ps cs

/-- Python `sub in s` (substring containment; `"" in s` is `True`). -/
def hasSub (sub : List Char) : List Char → Bool
  | [] => sub.isEmpty
  | c :: cs => isPre sub (c :: cs) || hasSub sub cs

/-- Python `s.replace(pat, "")` for a nonempty `pat`: remove every
non-overlapping occurrence, scanning left to right. -/
def removeAll (pat : List Char) (s : List Char) : List Char :=
  match s with
  | [] => []
  | c :: cs =>
    if h : 0 < pat.length ∧ isPre pat (c :: cs) = true then
      removeAll pat ((c :: cs).drop pat.length)
    else
      c :: removeAll pat cs
termination_by s.length
decreasing_by
  · simp only [List.length_drop, List.length_cons]
    omega
  · simp only [List.length_cons]
    omega

/-- `str.startswith` on `String`. -/
def startsWithPy (s pre : String) : Bool := isPre pre.data s.data

/-- Python `s.replace(pat, "")` on `String`. -/
def replaceEmpty (s pat : String) : String := ⟨removeAll pat.data s.data⟩

/-- Python `sub in s` on `String`. -/
def containsSub (s sub : String) : Bool := hasSub sub.data s.data

/-- Python `str.lower` (ASCII). -/
def pyLower (s : String) : String := ⟨s.data.map Char.toLower⟩

/-- Python `str.capitalize` (ASCII): first character upper-cased, rest lower-cased. -/
def pyCapitalize (s : String) : String :=
  match s.data with
  | [] => ""
  | c :: cs => ⟨c.toUpper :: cs.map Char.toLower⟩

/-- The characters `str.strip()` removes (ASCII whitespace). -/
def isPySpace (c : Char) : Bool :=
  c == ' ' || c == '\t' || c == '\n' || c == '\r' || c == '\x0b' || c == '\x0c'

/-- Python `str.strip()` on character lists. -/
def pyStripL (s : List Char) : List Char :=
  ((s.dropWhile isPySpace).reverse.dropWhile isPySpace).reverse

/-- Python `str.strip()` on `String`. -/
def pyStrip (s : String) : String := ⟨pyStripL s.data⟩

/-- Python `s.split(sep)` for a one-character separator. -/
def pySplitChar (sep : Char) : List Char → List (List Char)
  | [] => [[]]
  | c :: cs =>
    let r := pySplitChar sep cs
    if c == sep then [] :: r
    else (c :: r.headD []) :: r.tail

/-- Python `s.split(sep)` on `String` (one-character separator). -/
def pySplit (s : String) (sep : Char) : List String :=
  (pySplitChar sep s.data).map (fun l => ⟨l⟩)

/-- Comma-split then drop empties: `[s for s in value.split(",") if s]`. -/
def splitCSV (s : String) : List String := (pySplit s ',').filter (fun x => x != "")

/-! ## Python `int(...)` and `float(...)` string grammars

`_parse_int` / `_parse_float` in `app.py` call the builtin constructors and
map any `ValueError` to `None`.  The grammar below is CPython's (ASCII):
surrounding whitespace, an optional sign, then digit groups in which a
single underscore may stand between two digits. -/

/-- Consume a maximal run of digits with single embedded underscores.
Returns (value so far, number of digits consumed, rest). -/
def uDigits (acc : Nat) (cnt : Nat) : List Char → Nat × Nat × List Char
  | [] => (acc, cnt, [])
  | c :: cs =>
    if c.isDigit then uDigits (acc * 10 + (c.toNat - 48)) (cnt + 1) cs
    else if c == '_' then
      match cs with
      | d :: ds =>
        if d.isDigit then uDigits (acc * 10 + (d.toNat - 48)) (cnt + 1) ds
        else (acc, cnt, c :: cs)
      | [] => (acc, cnt, c :: cs)
    else (acc, cnt, c :: cs)

/-- A digit group: must begin with a digit. -/
def parseUDigits : List Char → Option (Nat × Nat × List Char)
  | [] => none
  | c :: cs => if c.isDigit then some (uDigits (c.toNat - 48) 1 cs) else none

/-- Python `int(s)` for a string argument; `none` on `ValueError`. -/
def pyIntParse (s : String) : Option Int :=
  let t := pyStripL s.data
  let (sign, t2) : Int × List Char :=
    match t with
    | '+' :: r => (1, r)
    | '-' :: r => (-1, r)
    | _ => (1, t)
  match parseUDigits t2 with
  | some (v, _, rest) => if rest.isEmpty then some (sign * v) else none
  | none => none

/-- The value of Python `float(s)`: a finite rational, a signed infinity
or a NaN. -/
inductive PyF where
  | finite (q : ℚ)
  | inf
  | ninf
  | nan
deriving DecidableEq

/-- The numeric (non-inf/nan) part of the `float(s)` grammar, after the sign:
`digits [. digits] [exponent]` or `. digits [exponent]`, with at least one
mantissa digit. -/
def pyFloatNumeric (t : List Char) : Option ℚ :=
  let (ip, icnt, r1) : Nat × Nat × List Char :=
    match parseUDigits t with
    | some (v, c, r) => (v, c, r)
    | none => (0, 0, t)
  let (fp, fcnt, r2) : Nat × Nat × List Char :=
    match r1 with
    | '.' :: r =>
      (match parseUDigits r with
       | some (v, c, rr) => (v, c, rr)
       | none => (0, 0, r))
    | _ => (0, 0, r1)
  if icnt + fcnt = 0 then none
  else
    let mant : ℚ := (ip : ℚ) + (fp : ℚ) / (10 : ℚ) ^ fcnt
    match r2 with
    | [] => some mant
    | e :: r3 =>
      if e == 'e' || e == 'E' then
        let (esign, r4) : Int × List Char :=
          match r3 with
          | '+' :: r => (1, r)
          | '-' :: r => (-1, r)
          | _ => (1, r3)
        match parseUDigits r4 with
        | some (ev, _, []) => some (mant * (10 : ℚ) ^ (esign * (ev : Int)))
        | _ => none
      else none

/-- Python `float(s)` for a string argument; `none` on `ValueError`. -/
def pyFloatParse (s : String) : Option PyF :=
  let t := pyStripL s.data
  let (neg, t2) : Bool × List Char :=
    match t with
    | '+' :: r => (false, r)
    | '-' :: r => (true, r)
    | _ => (false, t)
  let low := t2.map Char.toLower
  if low = "inf".data || low = "infinity".data then
    some (if neg then PyF.ninf else PyF.inf)
  else if low = "nan".data then some PyF.nan
  else
    match pyFloatNumeric t2 with
    | some q => some (PyF.finite (if neg then -q else q))
    | none => none

/-! ## URL parsing (`urllib.parse.urlparse(...).hostname`)

`normalize_retailer` derives store/source from the affiliate URL's hostname.
We embed the pieces of `urlsplit` the code reaches: scheme removal, netloc
extraction (text between `//` and the next `/?#`), then the `hostname`
property (text after the last `@`, before `:`, lower-cased; `None` when
empty).  IPv6 bracket hosts are not modelled. -/

/-- A character allowed in a URL scheme after the leading letter. -/
def isSchemeChar (c : Char) : Bool :=
  c.isAlphanum || c == '+' || c == '-' || c == '.'

/-- Drop a leading `scheme:` when present (letter, then scheme chars, then `:`). -/
def dropScheme (u : List Char) : List Char :=
  let pre := u.takeWhile (fun c => c != ':')
  if pre.length < u.length && !pre.isEmpty &&
      (pre.headD 'a').isAlpha && pre.all isSchemeChar then
    u.drop (pre.length + 1)
  else u

/-- The netloc: text between a leading `//` and the next `/`, `?` or `#`. -/
def netlocOf (u : List Char) : List Char :=
  let rest := dropScheme u
  if isPre "//".data rest then
    (rest.drop 2).takeWhile (fun c => c != '/' && c != '?' && c != '#')
  else []

/-- `urlparse(u).hostname`: netloc after the last `@`, before `:`, lower-cased;
`none` when empty. -/
def hostnameOf (u : String) : Option String :=
  let n := netlocOf u.data
  let afterAt := ((n.reverse.takeWhile (fun c => c != '@')).reverse)
  let host := (afterAt.takeWhile (fun c => c != ':')).map Char.toLower
  if host.isEmpty then none else some ⟨host⟩

/-! ## Raw rows and the canonical Product -/

/-- A raw row from a deals table, with one optional field per key
`normalize_deal` reads.  `id` is the row id in its rendered (`str`) form. -/
structure DealRow where
  id : String
  source : Option String := none
  title : Option String := none
  name : Option String := none
  brand : Option String := none
  store : Option String := none
  store_name : Option String := none
  image_blob_url : Option String := none
  image_url : Option String := none
  thumbnail_url : Option String := none
  current_price : Option ℚ := none
  price : Option ℚ := none
  original_price : Option ℚ := none
  discount_percent : Option ℚ := none
  category : Option String := none
  region : Option String := none
  affiliate_url : Option String := none
  url : Option String := none
  product_url : Option String := none
  is_active : Option Bool := none
  date_added : Option String := none
  created_at : Option String := none
  created_date : Option String := none
  first_seen_at : Option String := none
  date_updated : Option String := none
  updated_at : Option String := none
  last_seen_at : Option String := none
deriving DecidableEq

/-- The `extra_data` JSONB object of a `retailer_products` row (the keys read). -/
structure ExtraData where
  region : Option String := none
  source : Option String := none
deriving DecidableEq

/-- A raw row from `retailer_products`. -/
structure RetailerRow where
  id : String
  title : Option String := none
  brand : Option String := none
  images : Option (List String) := none
  thumbnail_url : Option String := none
  retailer_sku : Option String := none
  affiliate_url : Option String := none
  retailer_url : Option String := none
  current_price : Option ℚ := none
  original_price : Option ℚ := none
  sale_percentage : Option ℚ := none
  discount_percent : Option ℚ := none
  retailer_category : Option String := none
  region : Option String := none
  is_active : Option Bool := none
  first_seen_at : Option String := none
  last_seen_at : Option String := none
  extra_data : Option ExtraData := none
deriving DecidableEq

/-- A raw row from `costco_user_photos`. -/
structure CostcoPhotoRow where
  id : String
  source : Option String := none
  name : Option String := none
  sku : Option String := none
  processed_url : Option String := none
  original_url : Option String := none
  price : Option ℚ := none
  original_price : Option ℚ := none
  discount_percent : Option ℚ := none
  region : Option String := none
  scraped_at : Option String := none
  created_at : Option String := none
  updated_at : Option String := none
deriving DecidableEq

/-- The canonical Product entity every schema adapter produces. -/
structure Product where
  id : String
  title : String
  brand : Option String
  store : String
  source : String
  image_url : Option String
  current_price : Option ℚ
  original_price : Option ℚ
  discount_percent : Option ℚ
  category : Option String
  region : Option String
  affiliate_url : String
  is_active : Bool
  first_seen_at : Option String
  last_seen_at : Option String
deriving DecidableEq

/-! ## Schema adapters (`app.py` lines 77–201) -/

/-- `normalize_deal(row, table_name, table_source)`. -/
def normalize_deal (row : DealRow) (table_name : String)
    (table_source : Option String) : Product :=
  let source := pyOrSD row.source (pyOrSD table_source (replaceEmpty table_name "_deals"))
  { id := table_name ++ "_" ++ row.id
    title := pyOrSD row.title (pyOrSD row.name "")
    brand := row.brand
    store := pyOrSD row.store (pyOrSD row.store_name (pyOrSD table_source "Unknown"))
    source := source
    image_url := pyOrS row.image_blob_url (pyOrS row.image_url row.thumbnail_url)
    current_price := pyOrQ row.current_price row.price
    original_price := row.original_price
    discount_percent := row.discount_percent
    category := row.category
    region := row.region
    affiliate_url := pyOrSD row.affiliate_url (pyOrSD row.url (pyOrSD row.product_url "#"))
    is_active := row.is_active.getD true
    first_seen_at := pyOrS row.date_added (pyOrS row.created_at
      (pyOrS row.created_date row.first_seen_at))
    last_seen_at := pyOrS row.date_updated (pyOrS row.updated_at
      (pyOrS row.last_seen_at (pyOrS row.created_at row.created_date))) }

/-- `normalize_retailer(row)` (excluding CocoPriceTracker rows). -/
def normalize_retailer (row : RetailerRow) : Product :=
  let images := row.images.getD []
  let thumbnail := row.thumbnail_url.getD ""
  let image_url : Option String :=
    match images with
    | i :: _ => some i
    | [] =>
      if thumbnail != "" && !(containsSub thumbnail "LogoMobile") then some thumbnail
      else none
  let sku := pyOrSD row.retailer_sku ""
  let store_source : String × String :=
    if containsSub sku "_" then ((pySplit sku '_').headD "", "Flipp")
    else
      match row.affiliate_url with
      | some aurl =>
        if aurl != "" then
          let hostname :=
            match hostnameOf aurl with
            | some h => replaceEmpty h "www."
            | none => ""
          if containsSub hostname "amazon" then ("Amazon", "Amazon")
          else if containsSub hostname "leons" then ("Leons", "Leons")
          else
            let domain := (pySplit hostname '.').headD ""
            (pyCapitalize domain, pyCapitalize domain)
        else ("Unknown", "Flipp")
      | none => ("Unknown", "Flipp")
  { id := "retailer_" ++ row.id
    title := pyOrSD row.title ""
    brand := row.brand
    store := store_source.1
    source := store_source.2
    image_url := image_url
    current_price := row.current_price
    original_price := row.original_price
    discount_percent := pyOrQ row.sale_percentage row.discount_percent
    category := row.retailer_category
    region := row.region
    affiliate_url := pyOrSD row.affiliate_url (pyOrSD row.retailer_url "#")
    is_active := row.is_active.getD true
    first_seen_at := row.first_seen_at
    last_seen_at := pyOrS row.last_seen_at row.first_seen_at }

/-- `normalize_costco_photo(row)`. -/
def normalize_costco_photo (row : CostcoPhotoRow) : Product :=
  let is_usa := row.source == some "warehouse_runner"
  let name := pyOrSD row.name ""
  let sku := pyOrSD row.sku name
  { id := "costco_photo_" ++ row.id
    title := name
    brand := none
    store := "Costco"
    source := pyOrSD row.source "cocowest"
    image_url := pyOrS row.processed_url row.original_url
    current_price := row.price
    original_price := row.original_price
    discount_percent := row.discount_percent
    category := none
    region := some (pyOrSD row.region (if is_usa then "USA" else "Canada"))
    affiliate_url :=
      if is_usa then "https://www.costco.com/CatalogSearch?keyword=" ++ sku
      else "https://www.costco.ca/CatalogSearch?keyword=" ++ sku
    is_active := true
    first_seen_at := pyOrS row.scraped_at row.created_at
    last_seen_at := pyOrS row.updated_at row.scraped_at }

/-- `normalize_cocoprice(row, sku_image_map)`. -/
def normalize_cocoprice (row : RetailerRow)
    (sku_image_map : Option (List (String × String))) : Product :=
  let region_key := (row.extra_data.bind (fun e => e.region)).getD "west"
  let region_display :=
    if region_key == "west" then "Costco West"
    else if region_key == "east" then "Costco East"
    else "Canada"
  let sku := pyOrSD row.retailer_sku ""
  { id := "cocoprice_" ++ row.id
    title := pyOrSD row.title ""
    brand := row.brand
    store := "Costco"
    source := "cocopricetracker"
    image_url := (sku_image_map.getD []).lookup sku
    current_price := row.current_price
    original_price := row.original_price
    discount_percent := pyOrQ row.sale_percentage row.discount_percent
    category := row.retailer_category
    region := some region_display
    affiliate_url := pyOrSD row.retailer_url
      ("https://www.costco.ca/CatalogSearch?keyword=" ++
        (if sku != "" then sku else row.title.getD ""))
    is_active := row.is_active.getD true
    first_seen_at := row.first_seen_at
    last_seen_at := pyOrS row.last_seen_at row.first_seen_at }

/-! ## Source registry (`config.py` `DEAL_TABLES`) and id routing -/

/-- One deal table's descriptor: name, fixed source key, column mapping. -/
structure DealTable where
  name : String
  source : Option String
  date_col : String
  title_col : String
  store_col : String
deriving DecidableEq

/-- `DEAL_TABLES` from `config.py`, in registry order. -/
def DEAL_TABLES : List DealTable := [
  ⟨"deals", none, "date_added", "title", "store"⟩,
  ⟨"amazon_ca_deals", some "amazon_ca", "created_at", "title", "store"⟩,
  ⟨"cabelas_ca_deals", some "cabelas_ca", "created_at", "title", "store"⟩,
  ⟨"frank_and_oak_deals", some "frank_and_oak", "created_at", "title", "store"⟩,
  ⟨"leons_deals", some "leons", "created_at", "title", "store"⟩,
  ⟨"mastermind_toys_deals", some "mastermind_toys", "created_at", "title", "store"⟩,
  ⟨"reebok_ca_deals", some "reebok_ca", "created_at", "title", "store"⟩,
  ⟨"the_brick_deals", some "the_brick", "created_at", "title", "store"⟩,
  ⟨"yepsavings_deals", some "yepsavings", "created_date", "title", "store_name"⟩]

/-- Where `get_product` dispatches a prefixed product id. -/
inductive RouteResult where
  | deal (table : String) (nativeId : String)
  | retailer (nativeId : String)
  | costcoPhoto (nativeId : String)
  | cocoprice (nativeId : String)
deriving DecidableEq

/-- The deal-table loop of `get_product`: first table whose `name_` prefixes the id. -/
def findTable : List DealTable → String → Option DealTable
  | [], _ => none
  | t :: ts, pid => if startsWithPy pid (t.name ++ "_") then some t else findTable ts pid

/-- `get_product`'s id-prefix routing (`app.py` lines 824–848).  The three
special prefixes are stripped with `str.replace(prefix, "")`; a deal-table
prefix is stripped by slicing `product_id[len(prefix):]`; the fallback
assumes the main `deals` table. -/
def routeProduct (product_id : String) : RouteResult :=
  if startsWithPy product_id "costco_photo_" then
    RouteResult.costcoPhoto (replaceEmpty product_id "costco_photo_")
  else if startsWithPy product_id "cocoprice_" then
    RouteResult.cocoprice (replaceEmpty product_id "cocoprice_")
  else if startsWithPy product_id "retailer_" then
    RouteResult.retailer (replaceEmpty product_id "retailer_")
  else
    match findTable DEAL_TABLES product_id with
    | some t => RouteResult.deal t.name ⟨product_id.data.drop (t.name ++ "_").length⟩
    | none => RouteResult.deal "deals" (replaceEmpty product_id "deal_")

/-! ## `/api/products` — request parsing (`app.py` lines 535–567) -/

/-- The raw query-string parameters of a `/api/products` request:
`request.args.get(k)` is `none` when the parameter is absent. -/
structure RawRequest where
  sources : Option String := none
  stores : Option String := none
  regions : Option String := none
  brands : Option String := none
  categories : Option String := none
  search : Option String := none
  min_discount : Option String := none
  max_discount : Option String := none
  min_price : Option String := none
  max_price : Option String := none
  date_from : Option String := none
  date_to : Option String := none
  days : Option String := none
  on_sale_only : Option String := none
  has_price_drop : Option String := none
  active_only : Option String := none
  sort_by : Option String := none
  sort_order : Option String := none
  page : Option String := none
  per_page : Option String := none
deriving DecidableEq

/-- `_parse_int(request.args.get(k))`: absent or malformed gives `none`. -/
def parseIntOpt (o : Option String) : Option Int := o.bind pyIntParse

/-- `_parse_float(request.args.get(k))`: absent or malformed gives `none`. -/
def parseFloatOpt (o : Option String) : Option PyF := o.bind pyFloatParse

/-- The parsed filter/sort/page parameters.  `page` and `per_page` are kept
as `Nat`: the code clamps them with `max(1, ...)`, so `Int.toNat` is
lossless. -/
structure Params where
  sources : List String
  stores_filter : List String
  regions_filter : List String
  brands_filter : List String
  categories_filter : List String
  search : String
  min_discount : Option Int
  max_discount : Option Int
  min_price : Option PyF
  max_price : Option PyF
  date_from : Option String
  date_to : Option String
  days : Option Int
  on_sale_only : Bool
  has_price_drop : Bool
  active_only : Bool
  sort_by : String
  ascending : Bool
  page : Nat
  per_page : Nat
deriving DecidableEq

/-- The parameter-parsing prologue of `get_products`.  (The later
`days`-to-`date_from` conversion uses the wall clock and is applied only to
the push-down queries, which this embedding takes as inputs.) -/
def parseParams (req : RawRequest) : Params :=
  { sources := splitCSV (req.sources.getD "")
    stores_filter := splitCSV (req.stores.getD "")
    regions_filter := splitCSV (req.regions.getD "")
    brands_filter := splitCSV (req.brands.getD "")
    categories_filter := splitCSV (req.categories.getD "")
    search := pyStrip (req.search.getD "")
    min_discount := parseIntOpt req.min_discount
    max_discount := parseIntOpt req.max_discount
    min_price := parseFloatOpt req.min_price
    max_price := parseFloatOpt req.max_price
    date_from := req.date_from
    date_to := req.date_to
    days := parseIntOpt req.days
    on_sale_only := pyLower (req.on_sale_only.getD "") == "true"
    has_price_drop := pyLower (req.has_price_drop.getD "") == "true"
    active_only := pyLower (req.active_only.getD "") == "true"
    sort_by := req.sort_by.getD "last_seen_at"
    ascending := req.sort_order.getD "desc" == "asc"
    page := (max 1 (pyOrID (parseIntOpt req.page) 1)).toNat
    per_page := (min 100 (max 1 (pyOrID (parseIntOpt req.per_page) 24))).toNat }

/-! ## `/api/products` — residual filters (`app.py` lines 741–757) -/

/-- `include_retailer` (`app.py` line 621):
`not sources or any(s.lower() in ("amazon","leons","retailer","flipp") ...)`. -/
def includeRetailer (sources : List String) : Bool :=
  sources.isEmpty ||
    sources.any (fun s => ["amazon", "leons", "retailer", "flipp"].contains (pyLower s))

/-- The `has_price_drop` predicate: `p.get("current_price") and
p.get("original_price") and p["current_price"] < p["original_price"]`
under Python truthiness (a missing or zero price fails). -/
def keepPriceDrop (p : Product) : Bool :=
  match p.current_price, p.original_price with
  | some c, some o => c != 0 && o != 0 && decide (c < o)
  | _, _ => false

/-- The in-process brand filter:
`p.get("brand") in brands_filter or not p.get("brand")`. -/
def keepBrand (brands_filter : List String) (p : Product) : Bool :=
  (match p.brand with
   | some b => brands_filter.contains b
   | none => false) || !(sTruthy p.brand)

/-- The in-process category filter:
`p.get("category") in categories_filter or not p.get("category")`. -/
def keepCategory (categories_filter : List String) (p : Product) : Bool :=
  (match p.category with
   | some c => categories_filter.contains c
   | none => false) || !(sTruthy p.category)

/-- The post-fetch filtering block of `get_products`. -/
def applyResidual (ps : Params) (l : List Product) : List Product :=
  let l1 := if ps.has_price_drop then l.filter keepPriceDrop else l
  let l2 := if ps.active_only then l1.filter (fun p => p.is_active) else l1
  let l3 :=
    if !ps.brands_filter.isEmpty && !(includeRetailer ps.sources) then
      l2.filter (keepBrand ps.brands_filter)
    else l2
  if !ps.categories_filter.isEmpty && !(includeRetailer ps.sources) then
    l3.filter (keepCategory ps.categories_filter)
  else l3

/-! ## `/api/products` — sorting (`app.py` lines 759–768)

Python's `list.sort(key=k, reverse=r)` is a *stable* sort; with
`reverse=True` it is the stable sort by the descending key order.  Any two
stable sorts of the same list under the same total preorder agree, so the
insertion sort below is observationally the same function as timsort. -/

/-- Insert `x` before the first element it may precede (`le x y`). -/
def insertLe {α : Type} (le : α → α → Bool) (x : α) : List α → List α
  | [] => [x]
  | y :: ys => if le x y then x :: y :: ys else y :: insertLe le x ys

/-- Stable sort by `le` ("may precede"): equal elements keep list order. -/
def sortLe {α : Type} (le : α → α → Bool) (l : List α) : List α :=
  l.foldr (insertLe le) []

/-- The comparison `list.sort(key=k, reverse=not ascending)` induces. -/
def keyLe {α κ : Type} [LinearOrder κ] (k : α → κ) (ascending : Bool)
    (a b : α) : Bool :=
  if ascending then decide (k a ≤ k b) else decide (k b ≤ k a)

/-- Python `list.sort(key=k, reverse=not ascending)`. -/
def pySortByKey {α κ : Type} [LinearOrder κ] (k : α → κ) (ascending : Bool)
    (l : List α) : List α :=
  sortLe (keyLe k ascending) l

/-- Sort key `p.get("discount_percent") or 0`. -/
def discKey (p : Product) : ℚ := p.discount_percent.getD 0

/-- Sort key `p.get("current_price") or 0`. -/
def priceKey (p : Product) : ℚ := p.current_price.getD 0

/-- Sort key `p.get("first_seen_at") or ""`. -/
def firstSeenKey (p : Product) : String := p.first_seen_at.getD ""

/-- Sort key `p.get("last_seen_at") or ""`. -/
def lastSeenKey (p : Product) : String := p.last_seen_at.getD ""

/-- The sort dispatch of `get_products` (default: `last_seen_at`). -/
def sortProducts (sort_by : String) (ascending : Bool) (l : List Product) :
    List Product :=
  if sort_by == "discount_percent" then pySortByKey discKey ascending l
  else if sort_by == "current_price" then pySortByKey priceKey ascending l
  else if sort_by == "first_seen_at" then pySortByKey firstSeenKey ascending l
  else pySortByKey lastSeenKey ascending l

/-! ## `/api/products` — merge, paginate, respond

Each eligible source's fetch runs inside its own `try/except`: a failure is
logged and contributes nothing; a success appends its normalized rows to
`all_products` in registry order.  We take the per-source outcomes
(`Except` = raised-or-returned) as the input of the pipeline. -/

/-- The rows a source contributes: its data on success, nothing on failure. -/
def sourceRows : Except String (List Product) → List Product
  | Except.ok rows => rows
  | Except.error _ => []

/-- The `all_products` accumulation loop over per-source outcomes. -/
def mergeSources (fetches : List (Except String (List Product))) : List Product :=
  fetches.foldl
    (fun acc r =>
      match r with
      | Except.ok rows => acc ++ rows
      | Except.error _ => acc) []

/-- The JSON body of a `/api/products` response (the derived fields). -/
structure ProductsResponse where
  products : List Product
  total : Nat
  page : Nat
  per_page : Nat
  total_pages : Nat
deriving DecidableEq

/-- The `/api/products` pipeline after the per-source fetches: merge,
residual-filter, sort, slice `[(page-1)*per_page, page*per_page)`, and
compute `total_pages = (total + per_page - 1) // per_page`. -/
def get_products (req : RawRequest) (fetches : List (Except String (List Product))) :
    ProductsResponse :=
  let ps := parseParams req
  let filtered := applyResidual ps (mergeSources fetches)
  let sorted := sortProducts ps.sort_by ps.ascending filtered
  let total := sorted.length
  let off := (ps.page - 1) * ps.per_page
  { products := (sorted.drop off).take ps.per_page
    total := total
    page := ps.page
    per_page := ps.per_page
    total_pages := (total + ps.per_page - 1) / ps.per_page }

/-! ## Query Builder (`config.py` lines 82–253) -/

/-- A scalar filter value as passed to the builder (rendered with `str`). -/
inductive FVal where
  | s (v : String)
  | i (v : Int)
deriving DecidableEq

/-- Python `str(value)` for the scalar values the routes pass. -/
def FVal.render : FVal → String
  | FVal.s v => v
  | FVal.i v => toString v

/-- A JSON value as passed to `contains`/`not_contains` (what the routes
pass: flat objects of strings, none containing characters `json.dumps`
escapes). -/
structure JVal where
  fields : List (String × String)
deriving DecidableEq

/-- `json.dumps` with default separators, on such flat string objects. -/
def jsonDumps (v : JVal) : String :=
  "\x7b" ++ String.intercalate ", "
    (v.fields.map (fun kv => "\"" ++ kv.1 ++ "\": \"" ++ kv.2 ++ "\"")) ++ "\x7d"

/-- The value slot of an accumulated `(column, operator, value)` filter. -/
inductive FilterVal where
  | scalar (v : FVal)
  | listv (vs : List FVal)
  | jsonv (v : JVal)
deriving DecidableEq

/-- Render a filter value where the code expects a scalar. -/
def FilterVal.str1 : FilterVal → String
  | FilterVal.scalar v => v.render
  | FilterVal.listv _ => ""
  | FilterVal.jsonv v => jsonDumps v

/-- Render a filter value where the code expects a JSON object. -/
def FilterVal.json1 : FilterVal → String
  | FilterVal.jsonv v => jsonDumps v
  | FilterVal.scalar v => v.render
  | FilterVal.listv _ => ""

/-- `",".join(str(v) for v in value)` for the `in` operator. -/
def FilterVal.joined : FilterVal → String
  | FilterVal.listv vs => String.intercalate "," (vs.map FVal.render)
  | FilterVal.scalar v => v.render
  | FilterVal.jsonv _ => ""

/-- The accumulated state of a `QueryBuilder` (`_count_only` is kept for
fidelity; `execute` never reads it). -/
structure QueryBuilder where
  table : String
  select_cols : String
  filters : List (String × String × FilterVal)
  order_col : Option String
  order_desc : Bool
  limit_val : Option Int
  offset_val : Option Int
  count_only : Bool
  count_mode : Option String
deriving DecidableEq

/-- `SupabaseREST.table(name)`: a fresh builder. -/
def initBuilder (table : String) : QueryBuilder :=
  ⟨table, "*", [], none, false, none, none, false, none⟩

/-- One chainable call on the builder. -/
inductive QOp where
  | eq (col : String) (v : FVal)
  | neq (col : String) (v : FVal)
  | gt (col : String) (v : FVal)
  | gte (col : String) (v : FVal)
  | lt (col : String) (v : FVal)
  | lte (col : String) (v : FVal)
  | ilike (col : String) (pat : String)
  | inList (col : String) (vs : List FVal)
  | isNull (col : String) (v : String)
  | containsJ (col : String) (v : JVal)
  | notContainsJ (col : String) (v : JVal)
  | notIsNull (col : String) (v : String)
  | selectC (cols : String) (count : Option String)
  | orderC (col : String) (desc : Bool)
  | limitC (n : Int)
  | offsetC (n : Int)
deriving DecidableEq

/-- Apply one chain call (each Python method mutates `self` and returns it;
here the update is functional). -/
def applyOp (b : QueryBuilder) : QOp → QueryBuilder
  | QOp.eq col v => { b with filters := b.filters ++ [(col, "eq", FilterVal.scalar v)] }
  | QOp.neq col v => { b with filters := b.filters ++ [(col, "neq", FilterVal.scalar v)] }
  | QOp.gt col v => { b with filters := b.filters ++ [(col, "gt", FilterVal.scalar v)] }
  | QOp.gte col v => { b with filters := b.filters ++ [(col, "gte", FilterVal.scalar v)] }
  | QOp.lt col v => { b with filters := b.filters ++ [(col, "lt", FilterVal.scalar v)] }
  | QOp.lte col v => { b with filters := b.filters ++ [(col, "lte", FilterVal.scalar v)] }
  | QOp.ilike col pat =>
    { b with filters := b.filters ++ [(col, "ilike", FilterVal.scalar (FVal.s pat))] }
  | QOp.inList col vs => { b with filters := b.filters ++ [(col, "in", FilterVal.listv vs)] }
  | QOp.isNull col v =>
    { b with filters := b.filters ++ [(col, "is", FilterVal.scalar (FVal.s v))] }
  | QOp.containsJ col v => { b with filters := b.filters ++ [(col, "cs", FilterVal.jsonv v)] }
  | QOp.notContainsJ col v =>
    { b with filters := b.filters ++ [(col, "not.cs", FilterVal.jsonv v)] }
  | QOp.notIsNull col v =>
    { b with filters := b.filters ++ [(col, "not.is", FilterVal.scalar (FVal.s v))] }
  | QOp.selectC cols count =>
    { b with select_cols := cols
             count_mode := if count == some "exact" then some "exact" else b.count_mode }
  | QOp.orderC col desc => { b with order_col := some col, order_desc := desc }
  | QOp.limitC n => { b with limit_val := some n }
  | QOp.offsetC n => { b with offset_val := some n }

/-- A whole chain of calls starting from a fresh builder. -/
def applyChain (ops : List QOp) (b : QueryBuilder) : QueryBuilder :=
  ops.foldl applyOp b

/-- Insert-or-overwrite into an insertion-ordered dict (Python dict update). -/
def dictInsert (k v : String) : List (String × String) → List (String × String)
  | [] => [(k, v)]
  | (k2, v2) :: rest =>
    if k2 == k then (k2, v) :: rest else (k2, v2) :: dictInsert k v rest

/-- The wire request `execute()` builds: PostgREST query parameters and the
extra headers (Range / Range-Unit / Prefer). -/
structure Wire where
  params : List (String × String)
  headers : List (String × String)
deriving DecidableEq

/-- One filter's query parameter, by operator (`execute`'s filter loop). -/
def filterParam : String × String × FilterVal → String × String
  | (col, op, v) =>
    if op == "in" then (col, "in.(" ++ v.joined ++ ")")
    else if op == "cs" then (col, "cs." ++ v.json1)
    else if op == "not.cs" then (col, "not.cs." ++ v.json1)
    else if op == "is" then (col, "is." ++ v.str1)
    else if op == "not.is" then (col, "not.is." ++ v.str1)
    else if op == "ilike" then (col, "ilike." ++ v.str1)
    else (col, op ++ "." ++ v.str1)

/-- The pure wire-building part of `QueryBuilder.execute` (the method reads
`self` and local variables only; it assigns no attribute). -/
def wireOf (b : QueryBuilder) : Wire :=
  let params0 := [("select", b.select_cols)]
  let params1 := b.filters.foldl
    (fun acc f => dictInsert (filterParam f).1 (filterParam f).2 acc) params0
  let params2 :=
    match b.order_col with
    | some col =>
      dictInsert "order"
        (col ++ "." ++ (if b.order_desc then "desc" else "asc") ++ ".nullslast") params1
    | none => params1
  let headers1 :=
    match b.limit_val with
    | some n =>
      let start := pyOrID b.offset_val 0
      dictInsert "Range-Unit" "items"
        (dictInsert "Range" (toString start ++ "-" ++ toString (start + n - 1)) [])
    | none => []
  let headers2 :=
    if b.count_mode == some "exact" then dictInsert "Prefer" "count=exact" headers1
    else headers1
  ⟨params2, headers2⟩

/-- `execute()` as a state transformer: it performs the HTTP call from the
wire request and leaves the builder untouched (no attribute assignment in
the method body). -/
def executeB (b : QueryBuilder) : QueryBuilder × Wire := (b, wireOf b)

/-! ## SimpleCache (`config.py` lines 376–407) -/

/-- The TTL cache: a key-indexed store of (value, absolute expiry). -/
structure SimpleCache (V : Type) where
  store : String → Option (V × ℚ)

/-- `SimpleCache.get(key)` at wall-clock `now`: the value only when
`now < expires_at`, with lazy eviction of an expired entry. -/
def SimpleCache.get {V : Type} (c : SimpleCache V) (now : ℚ) (key : String) :
    Option V × SimpleCache V :=
  match c.store key with
  | some (v, expires_at) =>
    if now < expires_at then (some v, c)
    else (none, ⟨fun k => if k = key then none else c.store k⟩)
  | none => (none, c)

/-- `SimpleCache.set(key, value, ttl_seconds)` at wall-clock `now`. -/
def SimpleCache.set {V : Type} (c : SimpleCache V) (now : ℚ) (key : String)
    (v : V) (ttl_seconds : ℚ) : SimpleCache V :=
  ⟨fun k => if k = key then some (v, now + ttl_seconds) else c.store k⟩

/-! ## Lemmas: the stable sort -/

theorem insertLe_perm {α : Type} (le : α → α → Bool) (x : α) (l : List α) :
    List.Perm (insertLe le x l) (x :: l) := by
  induction l with
  | nil => exact List.Perm.refl _
  | cons y ys ih =>
    simp only [insertLe]
    by_cases h : le x y
    · simp [h]
    · simp only [h, if_neg, Bool.false_eq_true, not_false_eq_true, if_false]
      exact (ih.cons y).trans (List.Perm.swap x y ys)

theorem sortLe_perm {α : Type} (le : α → α → Bool) (l : List α) :
    List.Perm (sortLe le l) l := by
  induction l with
  | nil => exact List.Perm.refl _
  | cons x xs ih =>
    simp only [sortLe, List.foldr]
    exact (insertLe_perm le x _).trans (ih.cons x)

theorem mem_insertLe {α : Type} (le : α → α → Bool) (x a : α) (l : List α) :
    a ∈ insertLe le x l ↔ a = x ∨ a ∈ l := by
  rw [(insertLe_perm le x l).mem_iff, List.mem_cons]

theorem insertLe_pairwise {α : Type} (le : α → α → Bool)
    (htot : ∀ a b, le a b = true ∨ le b a = true)
    (htrans : ∀ a b c, le a b = true → le b c = true → le a c = true)
    (x : α) (l : List α) (h : l.Pairwise (fun a b => le a b = true)) :
    (insertLe le x l).Pairwise (fun a b => le a b = true) := by
  induction l with
  | nil => simp [insertLe]
  | cons y ys ih =>
    rcases List.pairwise_cons.mp h with ⟨hy, hys⟩
    simp only [insertLe]
    by_cases hxy : le x y
    · simp only [hxy, if_true]
      refine List.pairwise_cons.mpr ⟨?_, h⟩
      intro z hz
      rcases List.mem_cons.mp hz with rfl | hz2
      · exact hxy
      · exact htrans x y z hxy (hy z hz2)
    · simp only [hxy, Bool.false_eq_true, if_false]
      refine List.pairwise_cons.mpr ⟨?_, ih hys⟩
      intro z hz
      rcases (mem_insertLe le x z ys).mp hz with rfl | hz2
      · rcases htot z y with h1 | h1
        · exact absurd h1 hxy
        · exact h1
      · exact hy z hz2

theorem sortLe_pairwise {α : Type} (le : α → α → Bool)
    (htot : ∀ a b, le a b = true ∨ le b a = true)
    (htrans : ∀ a b c, le a b = true → le b c = true → le a c = true)
    (l : List α) : (sortLe le l).Pairwise (fun a b => le a b = true) := by
  induction l with
  | nil => simp [sortLe]
  | cons x xs ih => exact insertLe_pairwise le htot htrans x _ ih

theorem insertLe_filter_class {α : Type} (le : α → α → Bool) (pr : α → Bool)
    (hne : ∀ a b, le a b = false → pr a = true → pr b = false)
    (x : α) (l : List α) :
    (insertLe le x l).filter pr =
      if pr x = true then x :: l.filter pr else l.filter pr := by
  induction l with
  | nil =>
    by_cases hx : pr x = true <;>
      simp [insertLe, List.filter_cons, List.filter_nil, hx]
  | cons y ys ih =>
    simp only [insertLe]
    by_cases hxy : le x y
    · by_cases hx : pr x = true <;> by_cases hy : pr y = true <;>
        simp [hxy, List.filter_cons, hx, hy]
    · have hxyf : le x y = false := by simp [hxy]
      simp only [hxy, Bool.false_eq_true, if_false]
      by_cases hx : pr x = true
      · have hy : pr y = false := hne x y hxyf hx
        simp [List.filter_cons, hx, hy, ih]
      · by_cases hy : pr y = true <;> simp [List.filter_cons, hx, hy, ih]

theorem sortLe_filter_class {α : Type} (le : α → α → Bool) (pr : α → Bool)
    (hne : ∀ a b, le a b = false → pr a = true → pr b = false)
    (l : List α) :
    (sortLe le l).filter pr = l.filter pr := by
  induction l with
  | nil => simp [sortLe]
  | cons x xs ih =>
    show (insertLe le x (sortLe le xs)).filter _ = _
    rw [insertLe_filter_class le pr hne x (sortLe le xs), ih]
    by_cases hx : pr x = true
    · simp [hx, List.filter_cons]
    · simp [hx, List.filter_cons]

theorem keyLe_total {α κ : Type} [LinearOrder κ] (k : α → κ) (asc : Bool)
    (a b : α) : keyLe k asc a b = true ∨ keyLe k asc b a = true := by
  cases asc <;> simp [keyLe] <;> exact le_total _ _

theorem keyLe_trans {α κ : Type} [LinearOrder κ] (k : α → κ) (asc : Bool)
    (a b c : α) (h1 : keyLe k asc a b = true) (h2 : keyLe k asc b c = true) :
    keyLe k asc a c = true := by
  cases asc with
  | false =>
    simp only [keyLe, Bool.false_eq_true, if_false, decide_eq_true_eq] at *
    exact le_trans h2 h1
  | true =>
    simp only [keyLe, if_true, decide_eq_true_eq] at *
    exact le_trans h1 h2

theorem keyLe_false_ne {α κ : Type} [LinearOrder κ] (k : α → κ) (asc : Bool)
    (a b : α) (h : keyLe k asc a b = false) : k a ≠ k b := by
  intro hc
  cases asc <;> simp [keyLe, hc] at h

/-- The combined behavior of `list.sort(key=k, reverse=not asc)`: a
permutation, pairwise ordered for the induced comparison, stable (the
elements of each key class keep their list order), and so is every
`drop/take` slice of it. -/
theorem pySortByKey_spec {α κ : Type} [LinearOrder κ] (k : α → κ) (asc : Bool)
    (l : List α) :
    List.Perm (pySortByKey k asc l) l ∧
    (pySortByKey k asc l).Pairwise (fun a b => keyLe k asc a b = true) ∧
    (∀ i n : Nat, (((pySortByKey k asc l).drop i).take n).Pairwise
      (fun a b => keyLe k asc a b = true)) := by
  refine ⟨sortLe_perm _ l,
    sortLe_pairwise _ (keyLe_total k asc) (keyLe_trans k asc) l, fun i n => ?_⟩
  have hsub : (((pySortByKey k asc l).drop i).take n).Sublist (pySortByKey k asc l) :=
    (List.take_sublist _ _).trans (List.drop_sublist _ _)
  exact (sortLe_pairwise _ (keyLe_total k asc) (keyLe_trans k asc) l).sublist hsub

/-- Stability of the Python sort for any predicate that selects one key
class (such as "the key equals `c`"). -/
theorem pySortByKey_filter_class {α κ : Type} [LinearOrder κ] (k : α → κ)
    (asc : Bool) (l : List α) (pr : α → Bool)
    (hone : ∀ a b, pr a = true → pr b = true → k a = k b) :
    (pySortByKey k asc l).filter pr = l.filter pr := by
  apply sortLe_filter_class
  intro a b hab hpa
  cases hpb : pr b
  · rfl
  · exact absurd (hone a b hpa hpb) (keyLe_false_ne k asc a b hab)

/-! ## Lemmas: small arithmetic and string facts -/

theorem empty_le_str (s : String) : "" ≤ s := by
  rw [String.le_iff_toList_le]
  exact List.nil_le

theorem ceil_div_eq (t pp : Nat) (h : 0 < pp) :
    (t + pp - 1) / pp = ⌈(t : ℚ) / (pp : ℚ)⌉₊ := by
  have hppq : (0 : ℚ) < pp := by exact_mod_cast h
  apply le_antisymm
  · rcases Nat.eq_zero_or_pos ((t + pp - 1) / pp) with h0 | h1
    · omega
    · obtain ⟨qq, hqq⟩ : ∃ qq, (t + pp - 1) / pp = qq + 1 :=
        ⟨(t + pp - 1) / pp - 1, (Nat.succ_pred_eq_of_pos h1).symm⟩
      rw [hqq, Nat.add_one_le_iff, Nat.lt_ceil, lt_div_iff₀ hppq]
      have h2 : (t + pp - 1) / pp * pp ≤ t + pp - 1 := Nat.div_mul_le_self _ _
      rw [hqq, add_one_mul] at h2
      have ht1 : 1 ≤ t := by
        by_contra hc
        have ht0 : t = 0 := by omega
        subst ht0
        simp [Nat.div_eq_of_lt (show pp - 1 < pp by omega)] at hqq
      have h3 : qq * pp < t := by omega
      exact_mod_cast h3
  · rw [Nat.ceil_le, div_le_iff₀ hppq]
    have h4 : t + pp - 1 < ((t + pp - 1) / pp + 1) * pp :=
      (Nat.div_lt_iff_lt_mul h).mp (Nat.lt_succ_self _)
    rw [add_one_mul] at h4
    have h5 : t ≤ (t + pp - 1) / pp * pp := by omega
    exact_mod_cast h5

theorem mergeSources_foldl (fetches : List (Except String (List Product)))
    (acc : List Product) :
    fetches.foldl
      (fun acc r =>
        match r with
        | Except.ok rows => acc ++ rows
        | Except.error _ => acc) acc =
      acc ++ (fetches.map sourceRows).flatten := by
  induction fetches generalizing acc with
  | nil => simp
  | cons r rs ih =>
    cases r with
    | ok rows => simp [List.foldl, ih, sourceRows, List.append_assoc]
    | error e => simp [List.foldl, ih, sourceRows]

theorem mergeSources_eq_flatten (fetches : List (Except String (List Product))) :
    mergeSources fetches = (fetches.map sourceRows).flatten := by
  simpa using mergeSources_foldl fetches []

/-! ## Lemmas: prefixes, digit strings and `replace` -/

theorem isPre_append (p s : List Char) : isPre p (p ++ s) = true := by
  induction p with
  | nil => rfl
  | cons c cs ih => simp [isPre, ih]

/-- If every character of `s` satisfies `good` and the pattern starts with a
character that is not `good`, `s.replace(pat, "")` leaves `s` unchanged. -/
theorem removeAll_of_all_good (good : Char → Bool) (pat : List Char)
    (hpat : ∀ t, isPre pat t = true → ∃ c ts, t = c :: ts ∧ good c = false)
    (s : List Char) (hs : ∀ c ∈ s, good c = true) :
    removeAll pat s = s := by
  induction s with
  | nil => simp [removeAll]
  | cons c cs ih =>
    rw [removeAll]
    have hpre : isPre pat (c :: cs) = false := by
      cases hp : isPre pat (c :: cs)
      · rfl
      · rcases hpat _ hp with ⟨d, ts, hts, hgood⟩
        injection hts with h1 h2
        rw [← h1] at hgood
        rw [hs c (List.mem_cons_self c cs)] at hgood
        exact absurd hgood (by simp)
    simp only [hpre, Bool.false_eq_true, and_false, dite_false]
    rw [ih (fun d hd => hs d (List.mem_cons_of_mem c hd))]

/-- Removing a prefix occurrence: when `s = pat ++ rest` and `rest` has no
further occurrence (all-`good` characters with a non-`good` pattern head),
`replace` strips exactly the prefix. -/
theorem removeAll_prefix (good : Char → Bool) (pat rest : List Char)
    (hpatlen : 0 < pat.length)
    (hpat : ∀ t, isPre pat t = true → ∃ c ts, t = c :: ts ∧ good c = false)
    (hrest : ∀ c ∈ rest, good c = true) :
    removeAll pat (pat ++ rest) = rest := by
  cases pat with
  | nil => simp at hpatlen
  | cons p ps =>
    rw [show (p :: ps) ++ rest = p :: (ps ++ rest) from rfl, removeAll]
    have hpre : isPre (p :: ps) (p :: (ps ++ rest)) = true := isPre_append _ _
    rw [dif_pos ⟨by simp, hpre⟩]
    have hdrop : (p :: (ps ++ rest)).drop (p :: ps).length = rest := by
      show ((p :: ps) ++ rest).drop (p :: ps).length = rest
      exact List.drop_left _ _
    rw [hdrop]
    exact removeAll_of_all_good good (p :: ps) hpat rest hrest

/-! ## Claim-support definitions -/

/-- Strip a leading prefix occurrence with `str.replace(pre, "")` when the
suffix is all digits and the prefix starts with a non-digit. -/
theorem replaceEmpty_prefix_digits (pre idStr : String) (p0 : Char) (ps : List Char)
    (hpre : pre.data = p0 :: ps) (hp0 : p0.isDigit = false)
    (hid : ∀ c ∈ idStr.data, c.isDigit = true) :
    replaceEmpty (pre ++ idStr) pre = idStr := by
  show (⟨removeAll pre.data (pre ++ idStr).data⟩ : String) = idStr
  have h1 : (pre ++ idStr).data = pre.data ++ idStr.data := rfl
  rw [h1, removeAll_prefix Char.isDigit pre.data idStr.data ?hlen ?hp hid]
  case hlen => rw [hpre]; simp
  case hp =>
    intro t ht
    cases t with
    | nil => rw [hpre] at ht; simp [isPre] at ht
    | cons c ts =>
      refine ⟨c, ts, rfl, ?_⟩
      rw [hpre] at ht
      simp only [isPre, Bool.and_eq_true, beq_iff_eq] at ht
      rw [← ht.1]
      exact hp0

theorem keyLe_eq_true_iff {α κ : Type} [LinearOrder κ] (k : α → κ) (asc : Bool)
    (a b : α) :
    (keyLe k asc a b = true) ↔ (if asc = true then k a ≤ k b else k b ≤ k a) := by
  cases asc <;> simp [keyLe]

/-- The ordering relation the sort dispatch establishes for a given
`sort_by` / direction (descending unless `asc`). -/
def sortRelP (sort_by : String) (ascending : Bool) (p q : Product) : Prop :=
  if sort_by = "discount_percent" then
    (if ascending = true then discKey p ≤ discKey q else discKey q ≤ discKey p)
  else if sort_by = "current_price" then
    (if ascending = true then priceKey p ≤ priceKey q else priceKey q ≤ priceKey p)
  else if sort_by = "first_seen_at" then
    (if ascending = true then firstSeenKey p ≤ firstSeenKey q else firstSeenKey q ≤ firstSeenKey p)
  else
    (if ascending = true then lastSeenKey p ≤ lastSeenKey q else lastSeenKey q ≤ lastSeenKey p)

/-- Stability: each sort-key class of the output equals that of the input
(ties keep their original fetch order). -/
def sortStable (sort_by : String) (l s : List Product) : Prop :=
  if sort_by = "discount_percent" then
    ∀ c : ℚ, s.filter (fun p => discKey p == c) = l.filter (fun p => discKey p == c)
  else if sort_by = "current_price" then
    ∀ c : ℚ, s.filter (fun p => priceKey p == c) = l.filter (fun p => priceKey p == c)
  else if sort_by = "first_seen_at" then
    ∀ c : String, s.filter (fun p => firstSeenKey p == c) = l.filter (fun p => firstSeenKey p == c)
  else
    ∀ c : String, s.filter (fun p => lastSeenKey p == c) = l.filter (fun p => lastSeenKey p == c)

/-- The requested sort dimension has no data for this item. -/
def missingSortField (sort_by : String) (p : Product) : Prop :=
  if sort_by = "discount_percent" then p.discount_percent = none
  else if sort_by = "current_price" then p.current_price = none
  else if sort_by = "first_seen_at" then p.first_seen_at = none
  else p.last_seen_at = none

/-- `p`'s sort key is at most `q`'s (the "ordered as the lowest value" side). -/
def keyLowestLe (sort_by : String) (p q : Product) : Prop :=
  if sort_by = "discount_percent" then discKey p ≤ discKey q
  else if sort_by = "current_price" then priceKey p ≤ priceKey q
  else if sort_by = "first_seen_at" then firstSeenKey p ≤ firstSeenKey q
  else lastSeenKey p ≤ lastSeenKey q

/-- The data-quality assumption of the spec: price and discount fields are
non-negative when present. -/
def nonnegPrices (p : Product) : Bool :=
  (match p.current_price with
   | some v => decide (0 ≤ v)
   | none => true) &&
  (match p.discount_percent with
   | some v => decide (0 ≤ v)
   | none => true)

theorem nonneg_discKey (q : Product) (h : nonnegPrices q = true) : 0 ≤ discKey q := by
  cases hq : q.discount_percent with
  | none => simp [discKey, hq]
  | some v =>
    simp only [nonnegPrices, hq, Bool.and_eq_true, decide_eq_true_eq] at h
    simp [discKey, hq, h.2]

theorem nonneg_priceKey (q : Product) (h : nonnegPrices q = true) : 0 ≤ priceKey q := by
  cases hq : q.current_price with
  | none => simp [priceKey, hq]
  | some v =>
    simp only [nonnegPrices, hq, Bool.and_eq_true, decide_eq_true_eq] at h
    simp [priceKey, hq, h.1]

/-- Set the same raw value for every `_parse_int`-parsed query parameter. -/
def setIntRaw (req : RawRequest) (o : Option String) : RawRequest :=
  { req with page := o, per_page := o, min_discount := o, max_discount := o, days := o }

/-- Set the same raw value for every `_parse_float`-parsed query parameter. -/
def setFloatRaw (req : RawRequest) (o : Option String) : RawRequest :=
  { req with min_price := o, max_price := o }

/-- A deals-table row whose scraped title is pure promo text plus a name. -/
def c1row : DealRow := { id := "1", title := some "75% offNintendo Switch OLED" }

/-- A deals-table row with a price drop (80 from 100) and no stored discount. -/
def c2row : DealRow :=
  { id := "1", current_price := some 80, original_price := some 100 }

/-- A retailer row with the same price drop and no stored percentage. -/
def c2rrow : RetailerRow :=
  { id := "3", current_price := some 80, original_price := some 100 }

/-- A product with no current price (but an original price). -/
def c4prod : Product :=
  { id := "deals_1", title := "Widget", brand := none, store := "S", source := "deals",
    image_url := none, current_price := none, original_price := some 100,
    discount_percent := none, category := none, region := none, affiliate_url := "#",
    is_active := true, first_seen_at := none, last_seen_at := none }

/-- The parsed parameters of a request with only `has_price_drop=true`. -/
def c4params : Params := parseParams { has_price_drop := some "true" }

/-- Two products for the sort witness: a missing price and a concrete one. -/
def c6list : List Product :=
  [{ id := "a", title := "A", brand := none, store := "S", source := "s",
     image_url := none, current_price := none, original_price := none,
     discount_percent := none, category := none, region := none, affiliate_url := "#",
     is_active := true, first_seen_at := none, last_seen_at := some "2024-01-01" },
   { id := "b", title := "B", brand := none, store := "S", source := "s",
     image_url := none, current_price := some 5, original_price := some 9,
     discount_percent := some 44, category := none, region := none, affiliate_url := "#",
     is_active := true, first_seen_at := some "2024-01-02", last_seen_at := none }]

/-! ## C1 — the spec's title-cleanup rule vs the code -/

/-- C1 (counterexample): the adapters apply no title cleanup.  Normalizing a
deals row whose raw title is `"75% offNintendo Switch OLED"` keeps the raw
title; the claimed cleaned form `"Nintendo Switch OLED"` is not produced. -/
theorem title_cleanup_counterexample :
    (normalize_deal c1row "deals" none).title = "75% offNintendo Switch OLED" ∧
    (normalize_deal c1row "deals" none).title ≠ "Nintendo Switch OLED" := by
  constructor
  · rfl
  · decide

/-- C1 (amended): the adapters pass the raw title through the fallback chain
unchanged — a non-empty stored title is returned verbatim, with no promo-text
stripping. -/
theorem title_passthrough (row : DealRow) (t : String) (src : Option String)
    (s1 : String) (rrow : RetailerRow) (s2 : String)
    (h1 : row.title = some s1) (h2 : s1 ≠ "")
    (h3 : rrow.title = some s2) (h4 : s2 ≠ "") :
    (normalize_deal row t src).title = s1 ∧ (normalize_retailer rrow).title = s2 := by
  constructor
  · simp [normalize_deal, pyOrSD, h1, bne_iff_ne, h2]
  · simp [normalize_retailer, pyOrSD, h3, bne_iff_ne, h4]

/-- C1 witness: `title_passthrough` at concrete rows. -/
theorem title_passthrough_witness :
    (normalize_deal { id := "1", title := some "Nintendo Switch OLED" } "deals" none).title
        = "Nintendo Switch OLED" ∧
    (normalize_retailer { id := "2", title := some "Lego Set" }).title = "Lego Set" :=
  title_passthrough { id := "1", title := some "Nintendo Switch OLED" } "deals" none
    "Nintendo Switch OLED" { id := "2", title := some "Lego Set" } "Lego Set"
    rfl (by decide) rfl (by decide)

/-! ## C2 — the spec's discount-derivation rule vs the code -/

/-- C2 (counterexample): with `current=80`, `original=100` and no stored
discount, the adapter yields no discount at all — not the claimed derived
`round(((100-80)/100)*100, 1) = 20.0`. -/
theorem discount_derivation_counterexample :
    c2row.current_price = some 80 ∧ c2row.original_price = some 100 ∧
    c2row.discount_percent = none ∧
    (normalize_deal c2row "deals" none).discount_percent = none ∧
    (normalize_deal c2row "deals" none).discount_percent ≠ some 20 := by
  refine ⟨rfl, rfl, rfl, rfl, ?_⟩
  decide

/-- C2 (amended): the stored discount is passed through and nothing is
derived from prices: with no stored discount (and, for retailer rows, no
`sale_percentage`), the normalized product has no discount, whatever the
current/original prices are. -/
theorem discount_passthrough (row : DealRow) (t : String) (src : Option String)
    (rrow : RetailerRow)
    (h1 : row.discount_percent = none)
    (h2 : rrow.sale_percentage = none) (h3 : rrow.discount_percent = none) :
    (normalize_deal row t src).discount_percent = none ∧
    (normalize_retailer rrow).discount_percent = none := by
  constructor
  · simp [normalize_deal, h1]
  · simp [normalize_retailer, pyOrQ, qTruthy, h2, h3]

/-- C2 witness: `discount_passthrough` at rows with an 80-from-100 drop. -/
theorem discount_passthrough_witness :
    (normalize_deal c2row "deals" none).discount_percent = none ∧
    (normalize_retailer c2rrow).discount_percent = none :=
  discount_passthrough c2row "deals" none c2rrow rfl rfl rfl

/-! ## C5 — per-source failures are non-fatal -/

/-- C5: the `/api/products` pipeline treats each failed source exactly as an
empty contribution: the response over any mix of successes and failures
equals the response over the successes alone (so the successful sources'
items are still merged, filtered, sorted and paginated, and nothing
propagates to the caller), and the merged set is precisely the concatenation
of the successful sources' rows in fetch order. -/
theorem partial_failure_resilience (req : RawRequest)
    (fetches : List (Except String (List Product))) :
    get_products req fetches =
      get_products req (fetches.map (fun r => Except.ok (sourceRows r))) ∧
    mergeSources fetches = (fetches.map sourceRows).flatten := by
  refine ⟨?_, mergeSources_eq_flatten fetches⟩
  have hmap : List.map sourceRows (fetches.map fun r => Except.ok (sourceRows r))
      = List.map sourceRows fetches := by
    rw [List.map_map]
    exact List.map_congr_left (fun a _ => rfl)
  unfold get_products
  rw [mergeSources_eq_flatten, mergeSources_eq_flatten, hmap]

/-! ## C7 — QueryBuilder.execute is idempotent and side-effect-free -/

/-- C7: for every chain of `filter` / `select` / `order` / `limit` / `offset`
calls, `execute()` leaves the builder's accumulated state unchanged, and a
second `execute()` produces identical wire query parameters (including the
`order` parameter) and identical Range / count headers. -/
theorem query_builder_execute_idempotent (table : String) (ops : List QOp) :
    (executeB (applyChain ops (initBuilder table))).1 = applyChain ops (initBuilder table) ∧
    (executeB ((executeB (applyChain ops (initBuilder table))).1)).1 =
      applyChain ops (initBuilder table) ∧
    (executeB ((executeB (applyChain ops (initBuilder table))).1)).2.params =
      (executeB (applyChain ops (initBuilder table))).2.params ∧
    (executeB ((executeB (applyChain ops (initBuilder table))).1)).2.headers =
      (executeB (applyChain ops (initBuilder table))).2.headers :=
  ⟨rfl, rfl, rfl, rfl⟩

/-! ## C8 — SimpleCache TTL semantics -/

/-- C8: `get` returns a stored value exactly while the clock is strictly
before the absolute expiry `set` recorded (set time plus TTL), returns
`none` afterwards, and lazily evicts exactly on an expired hit (on a
successful hit the entry is untouched). -/
theorem cache_ttl_spec (V : Type) (c : SimpleCache V) (key : String) (v : V)
    (t0 t1 ttl_seconds : ℚ) (w : V) :
    (((c.set t0 key v ttl_seconds).get t1 key).1 =
      if t1 < t0 + ttl_seconds then some v else none) ∧
    ((c.get t1 key).1 = some w ↔ ∃ e, c.store key = some (w, e) ∧ t1 < e) ∧
    ((c.get t1 key).2.store key =
      if ((c.get t1 key).1).isSome then c.store key else none) := by
  refine ⟨?_, ?_, ?_⟩
  · by_cases h : t1 < t0 + ttl_seconds <;>
      simp [SimpleCache.set, SimpleCache.get, h]
  · cases hs : c.store key with
    | none => simp [SimpleCache.get, hs]
    | some p =>
      obtain ⟨v2, e⟩ := p
      by_cases h : t1 < e <;> simp [SimpleCache.get, hs, h] <;> aesop
  · cases hs : c.store key with
    | none => simp [SimpleCache.get, hs]
    | some p =>
      obtain ⟨v2, e⟩ := p
      by_cases h : t1 < e <;> simp [SimpleCache.get, hs, h]

/-! ## C3 — total_pages -/

/-- C3 (counterexample): with zero matching items the endpoint returns
`total_pages = 0`, not the claimed `max(1, ceil(total / per_page)) = 1` —
the code computes plain ceiling division with no floor of 1. -/
theorem total_pages_no_floor_counterexample :
    (get_products {} []).total = 0 ∧
    (get_products {} []).per_page = 24 ∧
    (get_products {} []).total_pages = 0 ∧
    (get_products {} []).total_pages ≠
      max 1 ⌈((get_products {} []).total : ℚ) / ((get_products {} []).per_page : ℚ)⌉₊ := by
  refine ⟨rfl, rfl, rfl, ?_⟩
  have h1 : (get_products {} []).total_pages = 0 := rfl
  have h2 : (get_products {} []).total = 0 := rfl
  have h3 : (get_products {} []).per_page = 24 := rfl
  rw [h1, h2, h3]
  norm_num

/-- C3 (amended): `total_pages` is the plain ceiling
`ceil(total / per_page)` with no floor — in particular it is `0`, not `1`,
when no items match. -/
theorem total_pages_is_ceiling (req : RawRequest)
    (fetches : List (Except String (List Product))) :
    (get_products req fetches).total_pages =
      ⌈((get_products req fetches).total : ℚ) /
        ((get_products req fetches).per_page : ℚ)⌉₊ ∧
    ((get_products req fetches).total = 0 → (get_products req fetches).total_pages = 0) := by
  have hpp : 0 < (parseParams req).per_page := by
    simp only [parseParams]
    generalize pyOrID (parseIntOpt req.per_page) 24 = x
    omega
  constructor
  · simp only [get_products]
    exact ceil_div_eq _ _ hpp
  · intro h
    simp only [get_products] at h ⊢
    rw [h, Nat.div_eq_of_lt (by omega)]

/-! ## C4 — residual filters and null handling -/

/-- C4 (counterexample): `has_price_drop` is not permissive about missing
data: a product with no current price is removed, not retained. -/
theorem price_drop_filter_counterexample :
    c4prod.current_price = none ∧
    c4params.has_price_drop = true ∧
    applyResidual c4params [c4prod] = [] := by
  refine ⟨rfl, by decide, by decide⟩

/-- C4 (amended): membership after the in-process filters.  The brand and
category filters are permissive (an item with no brand/category passes) and
`active_only` keeps items by their `is_active` flag (defaulted true), but
`has_price_drop` keeps only items with both prices present, truthy, and
`current < original` — items missing either price are excluded. -/
theorem residual_filters_spec (ps : Params) (l : List Product) (p : Product) :
    p ∈ applyResidual ps l ↔
      (p ∈ l ∧
        (ps.has_price_drop = true → keepPriceDrop p = true) ∧
        (ps.active_only = true → p.is_active = true) ∧
        ((!ps.brands_filter.isEmpty && !(includeRetailer ps.sources)) = true →
          keepBrand ps.brands_filter p = true) ∧
        ((!ps.categories_filter.isEmpty && !(includeRetailer ps.sources)) = true →
          keepCategory ps.categories_filter p = true)) := by
  by_cases h1 : ps.has_price_drop = true <;>
    by_cases h2 : ps.active_only = true <;>
    by_cases h3 : (!ps.brands_filter.isEmpty && !(includeRetailer ps.sources)) = true <;>
    by_cases h4 : (!ps.categories_filter.isEmpty && !(includeRetailer ps.sources)) = true <;>
    simp [applyResidual, h1, h2, h3, h4, List.mem_filter] <;>
    tauto

/-! ## C10 — numeric parameter parsing, defaults and clamping -/

/-- C10 (counterexample): `per_page=0` parses fine (`int("0") = 0`) and `0`
is outside `[1, 100]`, but the response uses the default `24`, not the
clamped value `min(100, max(1, 0)) = 1` — `0` falls through Python's `or`
to the default instead of being clamped. -/
theorem per_page_zero_counterexample :
    pyIntParse "0" = some 0 ∧
    (min 100 (max 1 (0 : Int))).toNat = 1 ∧
    (parseParams { per_page := some "0" }).per_page = 24 ∧
    (parseParams { per_page := some "0" }).per_page ≠ (min 100 (max 1 (0 : Int))).toNat := by
  refine ⟨by decide, by decide, by decide, by decide⟩

/-- C10 (amended): a malformed value for any numeric parameter parses to
`None` and the request behaves as if the parameter were absent; the response
always has `page ≥ 1` and `1 ≤ per_page ≤ 100`; `per_page` defaults to `24`;
а parsed *nonzero* out-of-range value is clamped into the interval, while a
parsed `0` falls back to the default. -/
theorem param_parsing_spec (req : RawRequest) (s : String) (v : Int) :
    (pyIntParse s = none →
      parseParams (setIntRaw req (some s)) = parseParams (setIntRaw req none)) ∧
    (pyFloatParse s = none →
      parseParams (setFloatRaw req (some s)) = parseParams (setFloatRaw req none)) ∧
    1 ≤ (parseParams req).page ∧
    1 ≤ (parseParams req).per_page ∧
    (parseParams req).per_page ≤ 100 ∧
    (req.per_page = none → (parseParams req).per_page = 24) ∧
    (req.per_page = some s → pyIntParse s = some v → v ≠ 0 →
      (parseParams req).per_page = (min 100 (max 1 v)).toNat) ∧
    (req.page = some s → pyIntParse s = some v → v ≠ 0 →
      (parseParams req).page = (max 1 v).toNat) := by
  refine ⟨?_, ?_, ?_, ?_, ?_, ?_, ?_, ?_⟩
  · intro h
    simp [parseParams, setIntRaw, parseIntOpt, Option.bind, h]
  · intro h
    simp [parseParams, setFloatRaw, parseFloatOpt, Option.bind, h]
  · simp only [parseParams]
    generalize pyOrID (parseIntOpt req.page) 1 = x
    omega
  · simp only [parseParams]
    generalize pyOrID (parseIntOpt req.per_page) 24 = x
    omega
  · simp only [parseParams]
    generalize pyOrID (parseIntOpt req.per_page) 24 = x
    omega
  · intro h
    simp [parseParams, parseIntOpt, h, pyOrID]
  · intro hs hv hnz
    simp [parseParams, parseIntOpt, hs, Option.bind, hv, pyOrID, bne_iff_ne, hnz]
  · intro hs hv hnz
    simp [parseParams, parseIntOpt, hs, Option.bind, hv, pyOrID, bne_iff_ne, hnz]

/-! ## C6 — global sort of the merged, filtered set -/

theorem pySort_branch {κ : Type} [LinearOrder κ] (k : Product → κ) (asc : Bool)
    (l : List Product) :
    List.Perm (pySortByKey k asc l) l ∧
    (pySortByKey k asc l).Pairwise
      (fun a b => if asc = true then k a ≤ k b else k b ≤ k a) ∧
    (∀ i n : Nat, (((pySortByKey k asc l).drop i).take n).Pairwise
      (fun a b => if asc = true then k a ≤ k b else k b ≤ k a)) := by
  obtain ⟨h1, h2, h3⟩ := pySortByKey_spec k asc l
  exact ⟨h1,
    h2.imp (fun hab => (keyLe_eq_true_iff k asc _ _).mp hab),
    fun i n => (h3 i n).imp (fun hab => (keyLe_eq_true_iff k asc _ _).mp hab)⟩

/-- C6: assuming prices and discounts are non-negative when present, the sort
step of `get_products` is a permutation of its input that is pairwise ordered
by the requested field (descending unless ascending was requested), stable
(each key class keeps its original fetch order), items missing the sort
field carry the lowest key, and every `drop`/`take` page slice of the result
is ordered the same way. -/
theorem products_sort_spec (sort_by : String) (ascending : Bool)
    (l : List Product) (hnn : l.all nonnegPrices = true) :
    List.Perm (sortProducts sort_by ascending l) l ∧
    (sortProducts sort_by ascending l).Pairwise (sortRelP sort_by ascending) ∧
    sortStable sort_by l (sortProducts sort_by ascending l) ∧
    (∀ p ∈ l, missingSortField sort_by p → ∀ q ∈ l, keyLowestLe sort_by p q) ∧
    (∀ i n : Nat, (((sortProducts sort_by ascending l).drop i).take n).Pairwise
      (sortRelP sort_by ascending)) := by
  have hall : ∀ x ∈ l, nonnegPrices x = true := List.all_eq_true.mp hnn
  by_cases hd : sort_by = "discount_percent"
  · obtain ⟨h1, h2, h3⟩ := pySort_branch discKey ascending l
    have hsp : sortProducts sort_by ascending l = pySortByKey discKey ascending l := by
      simp [sortProducts, beq_iff_eq, hd]
    have hrel : ∀ a b : Product,
        (if ascending = true then discKey a ≤ discKey b else discKey b ≤ discKey a) →
        sortRelP sort_by ascending a b := by
      intro a b hab
      simp only [sortRelP, hd, if_true]
      exact hab
    rw [hsp]
    refine ⟨h1, h2.imp (fun hab => hrel _ _ hab), ?_, ?_,
      fun i n => (h3 i n).imp (fun hab => hrel _ _ hab)⟩
    · simp only [sortStable, hd, if_true]
      intro c
      apply pySortByKey_filter_class
      intro a b ha hb
      rw [beq_iff_eq] at ha hb
      rw [ha, hb]
    · intro p _ hmiss q hq
      simp only [missingSortField, hd, if_true] at hmiss
      simp only [keyLowestLe, hd, if_true]
      have hz : discKey p = 0 := by simp [discKey, hmiss]
      rw [hz]
      exact nonneg_discKey q (hall q hq)
  · by_cases hc : sort_by = "current_price"
    · obtain ⟨h1, h2, h3⟩ := pySort_branch priceKey ascending l
      have ne_cd : ¬ ("current_price" : String) = "discount_percent" := by decide
      have hsp : sortProducts sort_by ascending l = pySortByKey priceKey ascending l := by
        simp [sortProducts, beq_iff_eq, hd, hc]
      have hrel : ∀ a b : Product,
          (if ascending = true then priceKey a ≤ priceKey b else priceKey b ≤ priceKey a) →
          sortRelP sort_by ascending a b := by
        intro a b hab
        simp only [sortRelP, hd, hc, if_true, if_false]
        exact hab
      rw [hsp]
      refine ⟨h1, h2.imp (fun hab => hrel _ _ hab), ?_, ?_,
        fun i n => (h3 i n).imp (fun hab => hrel _ _ hab)⟩
      · simp only [sortStable, hd, hc, if_true, if_false]
        intro c
        apply pySortByKey_filter_class
        intro a b ha hb
        rw [beq_iff_eq] at ha hb
        rw [ha, hb]
      · intro p _ hmiss q hq
        simp only [missingSortField, hd, hc, ne_cd, if_true, if_false] at hmiss
        simp only [keyLowestLe, hd, hc, ne_cd, if_true, if_false]
        have hz : priceKey p = 0 := by simp [priceKey, hmiss]
        rw [hz]
        exact nonneg_priceKey q (hall q hq)
    · by_cases hf : sort_by = "first_seen_at"
      · obtain ⟨h1, h2, h3⟩ := pySort_branch firstSeenKey ascending l
        have ne_fd : ¬ ("first_seen_at" : String) = "discount_percent" := by decide
        have ne_fc : ¬ ("first_seen_at" : String) = "current_price" := by decide
        have hsp : sortProducts sort_by ascending l =
            pySortByKey firstSeenKey ascending l := by
          simp [sortProducts, beq_iff_eq, hd, hc, hf]
        have hrel : ∀ a b : Product,
            (if ascending = true then firstSeenKey a ≤ firstSeenKey b
             else firstSeenKey b ≤ firstSeenKey a) →
            sortRelP sort_by ascending a b := by
          intro a b hab
          simp only [sortRelP, hd, hc, hf, if_true, if_false]
          exact hab
        rw [hsp]
        refine ⟨h1, h2.imp (fun hab => hrel _ _ hab), ?_, ?_,
          fun i n => (h3 i n).imp (fun hab => hrel _ _ hab)⟩
        · simp only [sortStable, hd, hc, hf, if_true, if_false]
          intro c
          apply pySortByKey_filter_class
          intro a b ha hb
          rw [beq_iff_eq] at ha hb
          rw [ha, hb]
        · intro p _ hmiss q _
          simp only [missingSortField, hd, hc, hf, ne_fd, ne_fc, if_true, if_false] at hmiss
          simp only [keyLowestLe, hd, hc, hf, ne_fd, ne_fc, if_true, if_false]
          have hz : firstSeenKey p = "" := by simp [firstSeenKey, hmiss]
          rw [hz]
          exact empty_le_str _
      · obtain ⟨h1, h2, h3⟩ := pySort_branch lastSeenKey ascending l
        have hsp : sortProducts sort_by ascending l =
            pySortByKey lastSeenKey ascending l := by
          simp [sortProducts, beq_iff_eq, hd, hc, hf]
        have hrel : ∀ a b : Product,
            (if ascending = true then lastSeenKey a ≤ lastSeenKey b
             else lastSeenKey b ≤ lastSeenKey a) →
            sortRelP sort_by ascending a b := by
          intro a b hab
          simp only [sortRelP, hd, hc, hf, if_false]
          exact hab
        rw [hsp]
        refine ⟨h1, h2.imp (fun hab => hrel _ _ hab), ?_, ?_,
          fun i n => (h3 i n).imp (fun hab => hrel _ _ hab)⟩
        · simp only [sortStable, hd, hc, hf, if_false]
          intro c
          apply pySortByKey_filter_class
          intro a b ha hb
          rw [beq_iff_eq] at ha hb
          rw [ha, hb]
        · intro p _ hmiss q _
          simp only [missingSortField, hd, hc, hf, if_false] at hmiss
          simp only [keyLowestLe, hd, hc, hf, if_false]
          have hz : lastSeenKey p = "" := by simp [lastSeenKey, hmiss]
          rw [hz]
          exact empty_le_str _

/-- C6 witness: `products_sort_spec` on a two-element list (one item missing
its price), sorted by `current_price` descending. -/
theorem products_sort_spec_witness :
    c6list.all nonnegPrices = true ∧
    (List.Perm (sortProducts "current_price" false c6list) c6list ∧
     (sortProducts "current_price" false c6list).Pairwise (sortRelP "current_price" false) ∧
     sortStable "current_price" c6list (sortProducts "current_price" false c6list) ∧
     (∀ p ∈ c6list, missingSortField "current_price" p →
       ∀ q ∈ c6list, keyLowestLe "current_price" p q) ∧
     (∀ i n : Nat, (((sortProducts "current_price" false c6list).drop i).take n).Pairwise
       (sortRelP "current_price" false))) :=
  ⟨by decide, products_sort_spec "current_price" false c6list (by decide)⟩

/-! ## C9 — id routing inverts id construction -/

/-- C9: the single-product routing is a left inverse of the adapters' id
construction.  For every deal table `T` and digit-string native id, the id
`<T.name>_<id>` routes to exactly `T` with that native id (no earlier
table's prefix captures it), and the `retailer_` / `costco_photo_` /
`cocoprice_` ids round-trip likewise. -/
theorem id_routing_left_inverse (dr : DealRow) (rr : RetailerRow)
    (cr : CostcoPhotoRow) (pr : RetailerRow) (m : Option (List (String × String)))
    (h1 : ∀ c ∈ dr.id.data, c.isDigit = true)
    (h2 : ∀ c ∈ rr.id.data, c.isDigit = true)
    (h3 : ∀ c ∈ cr.id.data, c.isDigit = true)
    (h4 : ∀ c ∈ pr.id.data, c.isDigit = true) :
    (∀ t ∈ DEAL_TABLES,
      routeProduct (normalize_deal dr t.name t.source).id = RouteResult.deal t.name dr.id) ∧
    routeProduct (normalize_retailer rr).id = RouteResult.retailer rr.id ∧
    routeProduct (normalize_costco_photo cr).id = RouteResult.costcoPhoto cr.id ∧
    routeProduct (normalize_cocoprice pr m).id = RouteResult.cocoprice pr.id := by
  refine ⟨?_, ?_, ?_, ?_⟩
  · intro t ht
    simp only [DEAL_TABLES, List.mem_cons, List.not_mem_nil, or_false] at ht
    rcases ht with rfl | rfl | rfl | rfl | rfl | rfl | rfl | rfl | rfl <;> rfl
  · show RouteResult.retailer (replaceEmpty ("retailer_" ++ rr.id) "retailer_") =
      RouteResult.retailer rr.id
    rw [replaceEmpty_prefix_digits "retailer_" rr.id 'r' "etailer_".data rfl rfl h2]
  · show RouteResult.costcoPhoto (replaceEmpty ("costco_photo_" ++ cr.id) "costco_photo_") =
      RouteResult.costcoPhoto cr.id
    rw [replaceEmpty_prefix_digits "costco_photo_" cr.id 'c' "ostco_photo_".data rfl rfl h3]
  · show RouteResult.cocoprice (replaceEmpty ("cocoprice_" ++ pr.id) "cocoprice_") =
      RouteResult.cocoprice pr.id
    rw [replaceEmpty_prefix_digits "cocoprice_" pr.id 'c' "ocoprice_".data rfl rfl h4]

/-- C9 witness: `id_routing_left_inverse` at native id `"42"` everywhere. -/
theorem id_routing_left_inverse_witness :
    (∀ t ∈ DEAL_TABLES,
      routeProduct (normalize_deal { id := "42" } t.name t.source).id =
        RouteResult.deal t.name "42") ∧
    routeProduct (normalize_retailer { id := "42" }).id = RouteResult.retailer "42" ∧
    routeProduct (normalize_costco_photo { id := "42" }).id = RouteResult.costcoPhoto "42" ∧
    routeProduct (normalize_cocoprice { id := "42" } none).id = RouteResult.cocoprice "42" :=
  id_routing_left_inverse { id := "42" } { id := "42" } { id := "42" } { id := "42" } none
    (by decide) (by decide) (by decide) (by decide)

end DealViewer


